import Mathlib

/-!
Shallow embedding of `src/lazyext-sync/src/wg.rs` (the `WaitGroup` /
`AsyncWaitGroup` join-counter primitive) and proofs about it.

Modelling conventions:
* `usize` is modelled as `Nat` together with an explicit `% USIZE`
  (`USIZE = 2 ^ 64`) wherever the machine operation wraps.  The atomic
  `fetch_add` used by `AsyncWaitGroup::add` always wraps; the mutex-guarded
  `*ctr += num` of `WaitGroup::add` wraps in release builds (it panics in
  debug builds), so theorems about the sync counter are only asserted below
  `USIZE`.
* Mutex-guarded state and atomics are modelled by explicit state passing:
  each operation takes the shared state and returns the updated state plus
  its observable output.  Claims are stated at quiescent points (no call in
  flight), matching the sequential execution of each critical section /
  atomic read-modify-write.
* Condvar `notify_all` is modelled by returning the list of currently
  parked waiters that get woken; `Waker::wake` by returning the list of
  wakers invoked.
* `Arc`-based sharing of the `Inner` state is modelled by a heap
  (`Nat`-indexed store of group states); a handle is the index of its
  shared state, so cloning a handle yields the same index.
-/

namespace LazyextWg

/-- Bit width of `usize` (64-bit target). -/
def wordBits : Nat := 64

/-- One more than the largest `usize` value: `2 ^ 64`. -/
def USIZE : Nat := 2 ^ wordBits

theorem USIZE_pos : 0 < USIZE := by decide

/-! ## Sync variant: `WaitGroup` (wg.rs lines 53-283) -/

/-- `WaitGroup::add` (wg.rs 176-189) on the mutex-guarded count:
`*ctr += num`.  The stored `usize` wraps at `USIZE` (release semantics). -/
def syncAddCount (c num : Nat) : Nat := (c + num) % USIZE

/-- `WaitGroup::done` (wg.rs 208-225) on the mutex-guarded count, together
with the condvar: given the current count and the list of threads parked in
`cvar`, returns the new count and the list of threads woken by
`notify_all`.  If the count is 1 it notifies all and stores 0; if 0 it
stores 0 (no notification); otherwise it stores `count - 1`. -/
def syncDone (c : Nat) (parked : List Nat) : Nat × List Nat :=
  if c = 1 then (0, parked)
  else if c = 0 then (0, [])
  else (c - 1, [])

/-- The count transition of `WaitGroup::done`, ignoring the condvar. -/
def syncDoneCount (c : Nat) : Nat := (syncDone c []).1

/-- `WaitGroup::wait` (wg.rs 259-282): reads the count under the lock; if it
is 0 it returns at once (0 parks).  Otherwise it parks on the condvar and
re-reads the count on each wakeup (`while *ctr > 0`), re-checking the
predicate.  `wakeups` is the sequence of count values observed at each
condvar wakeup; the result is the number of parks before returning, or
`none` if the supplied wakeups run out while the count is still positive
(the thread is still parked). -/
def syncWait : Nat → List Nat → Option Nat
  | 0, _ => some 0
  | _ + 1, [] => none
  | _ + 1, c :: rest => (syncWait c rest).map (· + 1)

/-- `WaitGroup::waitings` (wg.rs 228-238): locks the count, clones the
value, returns it; the shared count is returned unchanged. -/
def syncWaitings (c : Nat) : Nat × Nat := (c, c)

/-! ## Async variant: `AsyncWaitGroup` (wg.rs 285-518) -/

/-- The `AsyncInner` shared state (wg.rs 285-288): a `Mutex<Option<Waker>>`
single notification slot and an `AtomicUsize` count.  `W` is the type of
wakers (continuations). -/
structure AsyncState (W : Type) where
  waker : Option W
  count : Nat
deriving DecidableEq, Repr

/-- `AsyncWaitGroup::new` / `Default` (wg.rs 335-344): count 0, empty
slot. -/
def asyncNew (W : Type) : AsyncState W := { waker := none, count := 0 }

/-- `AsyncWaitGroup::add` (wg.rs 402-408) on the count:
`fetch_add(num, SeqCst)`, which wraps on overflow (never panics). -/
def asyncAddCount (c num : Nat) : Nat := (c + num) % USIZE

/-- `AsyncWaitGroup::add` on the shared state: only the count changes. -/
def asyncAdd (s : AsyncState W) (num : Nat) : AsyncState W :=
  { s with count := asyncAddCount s.count num }

/-- `AsyncWaitGroup::done` (wg.rs 428-452): a `fetch_update` whose closure
sees the pre-decrement value `val`.  If `val == 1` it takes the registered
waker out of the slot (leaving `None`), wakes it if present, and stores 0;
if `val == 0` the closure returns `None` (no store, no wake); otherwise it
stores `val - 1`.  Returns the new shared state and the list of wakers
invoked. -/
def asyncDone (s : AsyncState W) : AsyncState W × List W :=
  if s.count = 1 then ({ waker := none, count := 0 }, s.waker.toList)
  else if s.count = 0 then (s, [])
  else ({ s with count := s.count - 1 }, [])

/-- `AsyncWaitGroup::waitings` (wg.rs 455-457): a plain atomic load; the
shared state is returned unchanged. -/
def asyncWaitings (s : AsyncState W) : Nat × AsyncState W := (s.count, s)

/-- The result of `Future::poll`. -/
inductive PollResult
  | ready
  | pending
deriving DecidableEq, Repr

/-- `WaitGroupFuture::poll` (wg.rs 499-517): first stores a clone of the
caller's waker into the slot (`*g = Some(waker)`, overwriting any previous
registration), then loads the count; `Ready` exactly when that subsequent
load yields 0, `Pending` otherwise.  Returns the updated shared state and
the poll result. -/
def asyncPoll (s : AsyncState W) (w : W) : AsyncState W × PollResult :=
  let s1 : AsyncState W := { s with waker := some w }
  (s1, if s1.count = 0 then .ready else .pending)

/-- Iterate `asyncDone` `k` times, concatenating the wakers invoked. -/
def asyncDoneRun : AsyncState W → Nat → AsyncState W × List W
  | s, 0 => (s, [])
  | s, k + 1 =>
    let p := asyncDone s
    let q := asyncDoneRun p.1 k
    (q.1, p.2 ++ q.2)

/-! ## Handles and heaps (Arc sharing, wg.rs 97-118, 331-352) -/

/-- Heap of sync group states: `count r` is the mutex-guarded count of the
group at reference `r`; `next` is the next fresh reference. -/
structure SyncHeap where
  count : Nat → Nat
  next : Nat

/-- `WaitGroup::new` (wg.rs 101-109, 143-145): allocates a fresh shared
state with count 0 and returns the heap plus the handle (its reference). -/
def syncNewH (σ : SyncHeap) : SyncHeap × Nat :=
  ({ count := fun r => if r = σ.next then 0 else σ.count r, next := σ.next + 1 },
   σ.next)

/-- `Clone for WaitGroup` (wg.rs 112-118): clones the `Arc`, so the new
handle refers to the same shared state. -/
def syncClone (h : Nat) : Nat := h

/-- `WaitGroup::add` at the handle level (wg.rs 176-189): updates the count
of the shared state behind `h` and returns a new handle cloned from the
same `Arc` (no allocation). -/
def syncAddH (σ : SyncHeap) (h num : Nat) : SyncHeap × Nat :=
  ({ σ with
      count := fun r => if r = h then syncAddCount (σ.count h) num else σ.count r },
   h)

/-- Heap of async group states. -/
structure AsyncHeap (W : Type) where
  state : Nat → AsyncState W
  next : Nat

/-- `Clone for AsyncWaitGroup` (wg.rs 346-352): same shared state. -/
def asyncClone (h : Nat) : Nat := h

/-- `AsyncWaitGroup::add` at the handle level (wg.rs 402-408). -/
def asyncAddH (σ : AsyncHeap W) (h num : Nat) : AsyncHeap W × Nat :=
  ({ σ with
      state := fun r => if r = h then asyncAdd (σ.state h) num else σ.state r },
   h)

/-! ## Debug formatting (wg.rs 120-131, 354-362) -/

/-- The output of Rust's `Formatter::debug_struct(name).field(f, v).finish()`
builder calls: the struct name and its (field, value) list, from which the
rendered text is produced. -/
structure DebugRepr where
  name : String
  fields : List (String × Nat)
deriving DecidableEq, Repr

/-- Render a `DebugRepr` the way `debug_struct` renders a one-field struct:
`Name \x7b field: value \x7d`. -/
def DebugRepr.render (d : DebugRepr) : String :=
  d.name ++ " \x7b " ++
    String.intercalate ", " (d.fields.map fun p => p.1 ++ ": " ++ Nat.repr p.2) ++
    " \x7d"

/-- `impl Debug for WaitGroup` (wg.rs 120-131): locks the shared count and
renders `WaitGroup \x7b count: <count> \x7d`; the count is released
unchanged (returned as the second component). -/
def syncFmt (c : Nat) : DebugRepr × Nat :=
  (⟨"WaitGroup", [("count", c)]⟩, c)

/-- `impl Debug for AsyncWaitGroup` (wg.rs 354-362): atomically loads the
count and renders `AsyncWaitGroup \x7b count: <count> \x7d`; the shared
state is unchanged. -/
def asyncFmt (s : AsyncState W) : DebugRepr × AsyncState W :=
  (⟨"AsyncWaitGroup", [("count", s.count)]⟩, s)

/-- Debug rendering of the sync group behind handle `h` in heap `σ`. -/
def syncFmtH (σ : SyncHeap) (h : Nat) : String :=
  ((syncFmt (σ.count h)).1).render

/-- Debug rendering of the async group behind handle `h` in heap `σ`. -/
def asyncFmtH (σ : AsyncHeap W) (h : Nat) : String :=
  ((asyncFmt (σ.state h)).1).render

/-! ## Operation sequences (for the counting invariant) -/

/-- One completed call against a group: `add n` or `done`. -/
inductive WgOp
  | add (n : Nat)
  | done
deriving DecidableEq, Repr

/-- Run a sequence of completed `add`/`done` calls on the sync count
(each call is the critical section of wg.rs 176-189 resp. 208-225). -/
def runSyncCount : Nat → List WgOp → Nat
  | c, [] => c
  | c, .add n :: ops => runSyncCount (syncAddCount c n) ops
  | c, .done :: ops => runSyncCount (syncDoneCount c) ops

/-- Total of the deltas of all `add` calls in a sequence. -/
def sumAdds : List WgOp → Nat
  | [] => 0
  | .add n :: ops => n + sumAdds ops
  | .done :: ops => sumAdds ops

/-- Number of `done` calls in a sequence. -/
def numDones : List WgOp → Nat
  | [] => 0
  | .add _ :: ops => numDones ops
  | .done :: ops => 1 + numDones ops

/-- A sequence is clamp-free from count `c` when no `done` call ever runs
while the (mathematical, unwrapped) count is 0. -/
def noClamp : Nat → List WgOp → Bool
  | _, [] => true
  | c, .add n :: ops => noClamp (c + n) ops
  | c, .done :: ops => c != 0 && noClamp (c - 1) ops

/-! ## Basic lemmas -/

theorem syncDoneCount_eq_sub_one (c : Nat) : syncDoneCount c = c - 1 := by
  rcases c with _ | c
  · rfl
  · rcases c with _ | c <;> simp [syncDoneCount, syncDone]

theorem asyncDoneRun_zero_state (W : Type) (k : Nat) :
    asyncDoneRun (⟨none, 0⟩ : AsyncState W) k = (⟨none, 0⟩, []) := by
  induction k with
  | zero => rfl
  | succ k ih => simp [asyncDoneRun, asyncDone, ih]

theorem runSyncCount_noClamp (ops : List WgOp) :
    ∀ c, noClamp c ops = true → c + sumAdds ops < USIZE →
      runSyncCount c ops = c + sumAdds ops - numDones ops := by
  induction ops with
  | nil =>
    intro c _ _
    simp [runSyncCount, sumAdds, numDones]
  | cons op rest ih =>
    intro c hnc hlt
    cases op with
    | add n =>
      have hns : sumAdds (WgOp.add n :: rest) = n + sumAdds rest := rfl
      rw [hns] at hlt
      have hcn : c + n < USIZE := by omega
      have hm : syncAddCount c n = c + n := Nat.mod_eq_of_lt hcn
      have hrest := ih (c + n) (by simpa [noClamp] using hnc) (by omega)
      simp only [runSyncCount, hm, hrest, sumAdds, numDones]
      omega
    | done =>
      have hb : c ≠ 0 ∧ noClamp (c - 1) rest = true := by
        simpa [noClamp, Bool.and_eq_true] using hnc
      have hss : sumAdds (WgOp.done :: rest) = sumAdds rest := rfl
      rw [hss] at hlt
      have hrest := ih (c - 1) hb.2 (by omega)
      simp only [runSyncCount, syncDoneCount_eq_sub_one, hrest, sumAdds, numDones]
      omega

/-! ## Claim theorems -/

/-- C1: for every counter value `c`, `done()` produces 0 and wakes every
parked/registered waiter when `c = 1`, leaves the counter at 0 without
underflow when `c = 0`, and produces `c - 1` otherwise — for both the
blocking (`WaitGroup::done`) and the suspending (`AsyncWaitGroup::done`)
variant. -/
theorem done_step_semantics {W : Type} (c : Nat) (parked : List Nat)
    (s : AsyncState W) :
    (c = 1 → syncDone c parked = (0, parked)) ∧
    (c = 0 → syncDone c parked = (0, [])) ∧
    (2 ≤ c → syncDone c parked = (c - 1, [])) ∧
    (s.count = 1 → (asyncDone s).1.count = 0 ∧ (asyncDone s).2 = s.waker.toList) ∧
    (s.count = 0 → asyncDone s = (s, [])) ∧
    (2 ≤ s.count → (asyncDone s).1.count = s.count - 1 ∧ (asyncDone s).2 = []) := by
  refine ⟨?_, ?_, ?_, ?_, ?_, ?_⟩ <;> intro h
  · simp [syncDone, h]
  · simp [syncDone, h]
  · have h1 : c ≠ 1 := by omega
    have h0 : c ≠ 0 := by omega
    simp [syncDone, h0, h1]
  · simp [asyncDone, h]
  · have h1 : s.count ≠ 1 := by omega
    simp [asyncDone, h, h1]
  · have h1 : s.count ≠ 1 := by omega
    have h0 : s.count ≠ 0 := by omega
    simp [asyncDone, h0, h1]

/-- Witness for C1: `done` at counts 1, 0, 7 on concrete states. -/
theorem done_step_semantics_witness :
    syncDone 1 [2, 3] = (0, [2, 3]) ∧
    (asyncDone (⟨some 5, 1⟩ : AsyncState Nat)).2 = [5] ∧
    syncDone 0 [4] = (0, []) ∧
    syncDone 7 [4] = (6, []) := by
  have h1 := done_step_semantics 1 [2, 3] (⟨some 5, 1⟩ : AsyncState Nat)
  have h0 := done_step_semantics 0 [4] (⟨none, 0⟩ : AsyncState Nat)
  have h7 := done_step_semantics 7 [4] (⟨none, 0⟩ : AsyncState Nat)
  exact ⟨h1.1 rfl, (h1.2.2.2.1 rfl).2, h0.2.1 rfl, h7.2.2.1 (by decide)⟩

/-- C2: on every poll of `WaitGroupFuture`, the caller's waker is stored
into the single notification slot (overwriting any previous registration)
before the counter is read — visible in that the slot holds the new waker
in the post-state even when the poll returns `Ready` — the counter is not
modified, and the poll returns `Ready` exactly when the counter read after
registration yields 0. -/
theorem poll_registers_then_checks {W : Type} (s : AsyncState W) (w : W) :
    (asyncPoll s w).1.waker = some w ∧
    (asyncPoll s w).1.count = s.count ∧
    ((asyncPoll s w).2 = PollResult.ready ↔ (asyncPoll s w).1.count = 0) := by
  refine ⟨rfl, rfl, ?_⟩
  by_cases h : s.count = 0 <;> simp [asyncPoll, h]

/-- C3: an `AsyncWaitGroup::done` call whose `fetch_update` closure observes
pre-decrement count exactly 1 takes the registered continuation (if any) out
of the slot and invokes it exactly once; a call observing any other
pre-decrement value invokes no continuation. -/
theorem done_wakes_exactly_on_one {W : Type} (s : AsyncState W) :
    (s.count = 1 →
      (asyncDone s).2 = s.waker.toList ∧
      (∀ w, s.waker = some w → (asyncDone s).2 = [w]) ∧
      (s.waker = none → (asyncDone s).2 = [])) ∧
    (s.count ≠ 1 → (asyncDone s).2 = []) := by
  constructor
  · intro h
    refine ⟨by simp [asyncDone, h], ?_, ?_⟩
    · intro w hw
      simp [asyncDone, h, hw]
    · intro hw
      simp [asyncDone, h, hw]
  · intro h
    by_cases h0 : s.count = 0 <;> simp [asyncDone, h, h0]

/-- Witness for C3: `done` with a registered waker at count 1 invokes it
once; at count 2 it invokes nothing. -/
theorem done_wakes_exactly_on_one_witness :
    (asyncDone (⟨some 4, 1⟩ : AsyncState Nat)).2 = [4] ∧
    (asyncDone (⟨some 4, 2⟩ : AsyncState Nat)).2 = [] := by
  have h1 := done_wakes_exactly_on_one (⟨some 4, 1⟩ : AsyncState Nat)
  have h2 := done_wakes_exactly_on_one (⟨some 4, 2⟩ : AsyncState Nat)
  exact ⟨(h1.1 rfl).2.1 4 rfl, h2.2 (by decide)⟩

/-- C4: whenever the counter is 0 at entry, `WaitGroup::wait` returns
immediately (zero parks) regardless of the condvar wakeup schedule — and
since each such call leaves the shared count untouched, every repetition
does the same — and `WaitGroupFuture` resolves `Ready` on the first poll
with the counter still 0, as does a re-poll of the resulting state. -/
theorem wait_on_zero_immediate {W : Type} (wakeups : List Nat)
    (s : AsyncState W) (w1 w2 : W) :
    syncWait 0 wakeups = some 0 ∧
    (s.count = 0 →
      (asyncPoll s w1).2 = PollResult.ready ∧
      (asyncPoll s w1).1.count = 0 ∧
      (asyncPoll (asyncPoll s w1).1 w2).2 = PollResult.ready) := by
  constructor
  · cases wakeups <;> rfl
  · intro h
    refine ⟨by simp [asyncPoll, h], by simp [asyncPoll, h], by simp [asyncPoll, h]⟩

/-- Witness for C4: a fresh async group (count 0) resolves on first poll;
`wait` on count 0 parks zero times. -/
theorem wait_on_zero_immediate_witness :
    syncWait 0 [9, 9] = some 0 ∧
    (asyncPoll (asyncNew Nat) 11).2 = PollResult.ready := by
  have h := wait_on_zero_immediate [9, 9] (asyncNew Nat) 11 12
  exact ⟨h.1, (h.2 rfl).1⟩

/-- Counterexample to C5 as stated: on a fresh group, the sequence
`done; add 1` leaves the counter at 1 (the `done` on count 0 is a clamped
no-op), while `max(sum of deltas - number of done calls, 0) = max(1-1,0)
= 0`. -/
theorem counting_invariant_counterexample :
    runSyncCount 0 [WgOp.done, WgOp.add 1] = 1 ∧
    sumAdds [WgOp.done, WgOp.add 1] - numDones [WgOp.done, WgOp.add 1] = 0 ∧
    ¬ (runSyncCount 0 [WgOp.done, WgOp.add 1] =
        sumAdds [WgOp.done, WgOp.add 1] - numDones [WgOp.done, WgOp.add 1]) := by
  decide

/-- C5 (amended): for every finite sequence of completed `add(n_i)` and
`done()` calls on a fresh group in which no `done` runs while the counter
is 0 (no clamped `done`) and the total of the deltas stays below `2 ^ 64`
(no counter wrap), the resulting counter equals
`max(sum(n_i) - number of done calls, 0)` (truncated subtraction). -/
theorem counting_invariant_amended (ops : List WgOp)
    (hnc : noClamp 0 ops = true) (hlt : sumAdds ops < USIZE) :
    runSyncCount 0 ops = sumAdds ops - numDones ops := by
  simpa using runSyncCount_noClamp ops 0 hnc (by simpa using hlt)

/-- Witness for C5 (amended): `add 2; done; add 1; done; done` ends at
`3 - 3 = 0`. -/
theorem counting_invariant_amended_witness :
    runSyncCount 0 [WgOp.add 2, WgOp.done, WgOp.add 1, WgOp.done, WgOp.done] =
      sumAdds [WgOp.add 2, WgOp.done, WgOp.add 1, WgOp.done, WgOp.done] -
        numDones [WgOp.add 2, WgOp.done, WgOp.add 1, WgOp.done, WgOp.done] :=
  counting_invariant_amended
    [WgOp.add 2, WgOp.done, WgOp.add 1, WgOp.done, WgOp.done]
    (by decide) (by decide)

/-- Counterexample to C6 as stated: `AsyncWaitGroup::add` uses a wrapping
`fetch_add`, so at counter value `2 ^ 64 - 1` an `add(1)` produces 0, not
`c + 1`. -/
theorem add_same_state_counterexample :
    asyncAddCount (USIZE - 1) 1 = 0 ∧ (USIZE - 1) + 1 ≠ 0 := by
  constructor
  · show (USIZE - 1 + 1) % USIZE = 0
    have hp := USIZE_pos
    have he : USIZE - 1 + 1 = USIZE := by omega
    rw [he, Nat.mod_self]
  · exact Nat.succ_ne_zero _

/-- C6 (amended): `add(num)` returns a handle referring to the same shared
state (same reference, no new allocation) and stores `(c + num) mod 2 ^ 64`
— which equals `c + num` whenever that sum does not overflow — leaving
every other group untouched; `add(0)` leaves the counter unchanged.  Stated
for both variants; the sync counter is only asserted below `2 ^ 64`, where
the mutex-guarded `+=` cannot overflow. -/
theorem add_same_state_mod_semantics (σ : SyncHeap) {W : Type}
    (τ : AsyncHeap W) (h num : Nat)
    (hs : σ.count h + num < USIZE) (ha : (τ.state h).count < USIZE) :
    ((syncAddH σ h num).2 = h ∧
      (syncAddH σ h num).1.next = σ.next ∧
      (syncAddH σ h num).1.count h = σ.count h + num ∧
      (∀ r, r ≠ h → (syncAddH σ h num).1.count r = σ.count r) ∧
      (syncAddH σ h 0).1.count h = σ.count h) ∧
    ((asyncAddH τ h num).2 = h ∧
      (asyncAddH τ h num).1.next = τ.next ∧
      ((asyncAddH τ h num).1.state h).count = ((τ.state h).count + num) % USIZE ∧
      ((asyncAddH τ h num).1.state h).waker = (τ.state h).waker ∧
      (∀ r, r ≠ h → (asyncAddH τ h num).1.state r = τ.state r) ∧
      ((asyncAddH τ h 0).1.state h).count = (τ.state h).count) := by
  have hc : σ.count h < USIZE := by omega
  refine ⟨⟨rfl, rfl, ?_, ?_, ?_⟩, rfl, rfl, ?_, ?_, ?_, ?_⟩
  · simp [syncAddH, syncAddCount, Nat.mod_eq_of_lt hs]
  · intro r hr
    simp [syncAddH, hr]
  · simp [syncAddH, syncAddCount, Nat.mod_eq_of_lt hc]
  · simp [asyncAddH, asyncAdd, asyncAddCount]
  · simp [asyncAddH, asyncAdd]
  · intro r hr
    simp [asyncAddH, hr]
  · simp [asyncAddH, asyncAdd, asyncAddCount, Nat.mod_eq_of_lt ha]

/-- Witness for C6 (amended): adding 3 to a group at count 5 yields 8, the
handle is unchanged, and `add 0` is a no-op. -/
theorem add_same_state_mod_semantics_witness :
    (syncAddH ⟨fun _ => 5, 1⟩ 0 3).2 = 0 ∧
    (syncAddH ⟨fun _ => 5, 1⟩ 0 3).1.count 0 = 8 ∧
    ((asyncAddH (⟨fun _ => ⟨none, 5⟩, 1⟩ : AsyncHeap Nat) 0 0).1.state 0).count = 5 := by
  have h := add_same_state_mod_semantics ⟨fun _ => 5, 1⟩
    (⟨fun _ => ⟨none, 5⟩, 1⟩ : AsyncHeap Nat) 0 3 (by decide) (by decide)
  exact ⟨h.1.1, h.1.2.2.1, h.2.2.2.2.2.2⟩

/-- C7: two handles over the same shared state — one obtained from the
other by `clone` or by `add` — have identical debug renderings, in both
variants, and each rendering exposes the current counter value (the
`count` field of the rendered struct is exactly the current count, so the
rendering determines it). -/
theorem shared_state_renders_identically (σ : SyncHeap) {W : Type}
    (τ : AsyncHeap W) (h num : Nat) :
    syncFmtH σ (syncClone h) = syncFmtH σ h ∧
    syncFmtH (syncAddH σ h num).1 (syncAddH σ h num).2 =
      syncFmtH (syncAddH σ h num).1 h ∧
    asyncFmtH τ (asyncClone h) = asyncFmtH τ h ∧
    asyncFmtH (asyncAddH τ h num).1 (asyncAddH τ h num).2 =
      asyncFmtH (asyncAddH τ h num).1 h ∧
    (syncFmt (σ.count h)).1.fields = [("count", σ.count h)] ∧
    (asyncFmt (τ.state h)).1.fields = [("count", (τ.state h).count)] ∧
    (∀ c1 c2 : Nat, (syncFmt c1).1 = (syncFmt c2).1 → c1 = c2) ∧
    (∀ s1 s2 : AsyncState W, (asyncFmt s1).1 = (asyncFmt s2).1 →
      s1.count = s2.count) := by
  refine ⟨rfl, rfl, rfl, rfl, rfl, rfl, ?_, ?_⟩
  · intro c1 c2 hc
    simpa [syncFmt] using congrArg DebugRepr.fields hc
  · intro s1 s2 hc
    simpa [asyncFmt] using congrArg DebugRepr.fields hc

/-- Witness for C7: a cloned handle and one returned by `add` render the
same string as the original, and the rendering determines the count. -/
theorem shared_state_renders_identically_witness :
    syncFmtH ⟨fun _ => 3, 1⟩ (syncClone 0) = syncFmtH ⟨fun _ => 3, 1⟩ 0 ∧
    ((syncFmt 3).1 = (syncFmt 3).1 → (3 : Nat) = 3) := by
  have h := shared_state_renders_identically ⟨fun _ => 3, 1⟩
    (⟨fun _ => asyncNew Nat, 1⟩ : AsyncHeap Nat) 0 2
  exact ⟨h.1, h.2.2.2.2.2.2.1 3 3⟩

/-- C8: an `AsyncWaitGroup::done` observing pre-decrement count 1 empties
the notification slot (leaves `None`) while taking the continuation, so
after it the slot holds no waker and any number of further `done` calls
(before a new poll re-registers) invoke no continuation and change
nothing — hence each registered continuation is invoked at most once. -/
theorem last_done_empties_slot {W : Type} (s : AsyncState W)
    (h1 : s.count = 1) :
    (asyncDone s).1.waker = none ∧
    (asyncDone s).1.count = 0 ∧
    (asyncDone s).2.length ≤ 1 ∧
    ∀ k, asyncDoneRun (asyncDone s).1 k = ((asyncDone s).1, []) := by
  have hd : (asyncDone s).1 = (⟨none, 0⟩ : AsyncState W) := by
    simp [asyncDone, h1]
  refine ⟨by rw [hd], by rw [hd], ?_, ?_⟩
  · have hw : (asyncDone s).2 = s.waker.toList := by simp [asyncDone, h1]
    rw [hw]
    cases s.waker <;> simp
  · intro k
    rw [hd]
    exact asyncDoneRun_zero_state W k

/-- Witness for C8: after the `done` that takes count 1 to 0 with waker 7
registered, the slot is empty and two further `done` calls wake nothing. -/
theorem last_done_empties_slot_witness :
    (asyncDone (⟨some 7, 1⟩ : AsyncState Nat)).1.waker = none ∧
    asyncDoneRun (asyncDone (⟨some 7, 1⟩ : AsyncState Nat)).1 2 =
      ((asyncDone (⟨some 7, 1⟩ : AsyncState Nat)).1, []) := by
  have h := last_done_empties_slot (⟨some 7, 1⟩ : AsyncState Nat) rfl
  exact ⟨h.1, h.2.2.2 2⟩

/-- C9: `AsyncWaitGroup::add` performs wrapping machine addition: the new
counter is below `2 ^ 64`, is congruent to `c + num` modulo `2 ^ 64`, and
equals `c + num` exactly when the mathematical sum fits in the word — with
no error or panic for any input (the operation is total). -/
theorem async_add_wraps (c num : Nat) :
    asyncAddCount c num < USIZE ∧
    asyncAddCount c num % USIZE = (c + num) % USIZE ∧
    (c + num < USIZE → asyncAddCount c num = c + num) := by
  refine ⟨Nat.mod_lt _ USIZE_pos, ?_, fun h => Nat.mod_eq_of_lt h⟩
  exact Nat.mod_eq_of_lt (Nat.mod_lt _ USIZE_pos)

/-- Witness for C9: `add` at count 3 with delta 4 stores 7, below the
wrap bound. -/
theorem async_add_wraps_witness :
    asyncAddCount 3 4 = 3 + 4 ∧ asyncAddCount 3 4 < USIZE :=
  ⟨(async_add_wraps 3 4).2.2 (by decide), (async_add_wraps 3 4).1⟩

/-- C10: `waitings()` and the debug formatter are read-only in both
variants: they return the current counter value (resp. a rendering of it)
and leave the counter, the notification slot and all other shared state
unchanged. -/
theorem waitings_and_fmt_readonly (c : Nat) {W : Type} (s : AsyncState W) :
    (syncWaitings c).1 = c ∧
    (syncWaitings c).2 = c ∧
    (asyncWaitings s).1 = s.count ∧
    (asyncWaitings s).2 = s ∧
    (syncFmt c).2 = c ∧
    (asyncFmt s).2 = s ∧
    (asyncFmt s).2.waker = s.waker ∧
    (asyncFmt s).2.count = s.count :=
  ⟨rfl, rfl, rfl, rfl, rfl, rfl, rfl, rfl⟩

end LazyextWg
